import Mathlib

/-!
Shallow embedding of the session/credential/abuse-defense core of the
`a8n-tools/saas` API server (Rust, `src/api/src`), together with proofs of
the spec's testable properties.

Conventions of the embedding:
* wall-clock instants (`chrono::DateTime<Utc>`) are `Int` seconds;
* UUIDs are `Nat`; IP addresses are `String`;
* a SQL table is a `List` of record structures; `SELECT ... WHERE` is
  `List.find?` / `List.filter`, `UPDATE` is `List.map`;
* fallible Rust functions returning `Result<T, AppError>` become
  `Except AppError T`.
-/

namespace Saas

/-- The error taxonomy of `src/api/src/errors.rs` (`enum AppError`). -/
inductive AppError where
  | ValidationError (field message : String)
  | InvalidCredentials
  | TokenExpired
  | Unauthorized
  | Forbidden
  | NotFound (resource : String)
  | Conflict (message : String)
  | RateLimited (retryAfter : Nat)
  | InternalError (message : String)
  | DatabaseError (message : String)
deriving DecidableEq, Repr

/-! ## Association-list helpers

The Rust code uses `HashMap` (auto-ban state) and SQL rows keyed by a
unique column (rate limits).  Both are embedded as association lists with
insert-or-replace (`ainsert`), lookup (`alookup`) and removal (`aerase`). -/

def alookup {κ β : Type} [DecidableEq κ] : List (κ × β) → κ → Option β
  | [], _ => none
  | (k', v) :: t, k => if k' = k then some v else alookup t k

def ainsert {κ β : Type} [DecidableEq κ] : List (κ × β) → κ → β → List (κ × β)
  | [], k, v => [(k, v)]
  | (k', v') :: t, k, v =>
      if k' = k then (k, v) :: t else (k', v') :: ainsert t k v

def aerase {κ β : Type} [DecidableEq κ] : List (κ × β) → κ → List (κ × β)
  | [], _ => []
  | (k', v') :: t, k => if k' = k then t else (k', v') :: aerase t k

/-! ## Refresh tokens

Embedding of `src/api/src/models/token.rs` (`RefreshToken`) and
`src/api/src/repositories/token.rs` (refresh-token section), plus
`AuthService::refresh_tokens` from `src/api/src/services/auth.rs`. -/

/-- A row of the `refresh_tokens` table (`models/token.rs`, `RefreshToken`). -/
structure RefreshTokenRec where
  id : Nat
  userId : Nat
  tokenHash : String
  deviceInfo : Option String
  expiresAt : Int
  createdAt : Int
  lastUsedAt : Option Int
  revokedAt : Option Int
deriving DecidableEq, Repr

/-- Rust `RefreshToken::is_expired`: `expires_at < Utc::now()`. -/
def RefreshTokenRec.isExpired (r : RefreshTokenRec) (now : Int) : Bool :=
  decide (r.expiresAt < now)

/-- Rust `RefreshToken::is_revoked`: `revoked_at.is_some()`. -/
def RefreshTokenRec.isRevoked (r : RefreshTokenRec) : Bool :=
  r.revokedAt.isSome

/-- Rust `RefreshToken::is_valid`: not expired and not revoked. -/
def RefreshTokenRec.isValid (r : RefreshTokenRec) (now : Int) : Bool :=
  !(r.isExpired now) && !r.isRevoked

/-- A record is usable when it is neither revoked nor past its expiry.
The spec's invariant says a record that is not usable stays that way. -/
def refreshUsable (r : RefreshTokenRec) (now : Int) : Bool :=
  r.revokedAt.isNone && decide (now < r.expiresAt)

/-- Rust `CreateRefreshToken` (the insert payload of `create_refresh_token`). -/
structure CreateRefreshToken where
  userId : Nat
  tokenHash : String
  deviceInfo : Option String
  expiresAt : Int
deriving DecidableEq, Repr

/-- Rust `TokenRepository::create_refresh_token`: `INSERT ... RETURNING *`.
The fresh row id is supplied by the database, modelled as `newId`. -/
def create_refresh_token (db : List RefreshTokenRec) (data : CreateRefreshToken)
    (newId : Nat) (now : Int) : List RefreshTokenRec :=
  db ++ [⟨newId, data.userId, data.tokenHash, data.deviceInfo, data.expiresAt,
          now, none, none⟩]

/-- Rust `TokenRepository::find_refresh_token_by_hash`:
`SELECT * FROM refresh_tokens WHERE token_hash = $1 AND revoked_at IS NULL
AND expires_at > NOW()`. -/
def find_refresh_token_by_hash (db : List RefreshTokenRec) (h : String)
    (now : Int) : Option RefreshTokenRec :=
  db.find? (fun r => r.tokenHash == h && r.revokedAt.isNone
                      && decide (now < r.expiresAt))

/-- Rust `TokenRepository::update_refresh_token_last_used`:
`UPDATE refresh_tokens SET last_used_at = NOW() WHERE id = $1`. -/
def update_refresh_token_last_used (db : List RefreshTokenRec) (tid : Nat)
    (now : Int) : List RefreshTokenRec :=
  db.map (fun r => if r.id = tid then { r with lastUsedAt := some now } else r)

/-- Rust `TokenRepository::revoke_refresh_token`:
`UPDATE refresh_tokens SET revoked_at = NOW() WHERE id = $1`. -/
def revoke_refresh_token (db : List RefreshTokenRec) (tid : Nat)
    (now : Int) : List RefreshTokenRec :=
  db.map (fun r => if r.id = tid then { r with revokedAt := some now } else r)

/-- Rust `TokenRepository::revoke_refresh_token_by_hash`:
`UPDATE refresh_tokens SET revoked_at = NOW() WHERE token_hash = $1`. -/
def revoke_refresh_token_by_hash (db : List RefreshTokenRec) (h : String)
    (now : Int) : List RefreshTokenRec :=
  db.map (fun r => if r.tokenHash = h then { r with revokedAt := some now } else r)

/-- Rust `TokenRepository::revoke_all_user_refresh_tokens`:
`UPDATE refresh_tokens SET revoked_at = NOW()
WHERE user_id = $1 AND revoked_at IS NULL`. -/
def revoke_all_user_refresh_tokens (db : List RefreshTokenRec) (uid : Nat)
    (now : Int) : List RefreshTokenRec :=
  db.map (fun r => if r.userId = uid ∧ r.revokedAt = none
                   then { r with revokedAt := some now } else r)

/-- The refresh-token part of `TokenRepository::cleanup_expired_tokens`:
`DELETE FROM refresh_tokens WHERE expires_at < NOW()`. -/
def cleanup_expired_refresh_tokens (db : List RefreshTokenRec)
    (now : Int) : List RefreshTokenRec :=
  db.filter (fun r => !decide (r.expiresAt < now))

/-- The repository write operations that can touch the `refresh_tokens`
table, used to state that none of them resurrects an unusable record. -/
inductive RefreshOp where
  | create (data : CreateRefreshToken) (newId : Nat)
  | updateLastUsed (tid : Nat)
  | revoke (tid : Nat)
  | revokeByHash (h : String)
  | revokeAllForUser (uid : Nat)
  | cleanup
deriving DecidableEq, Repr

def applyRefreshOp (db : List RefreshTokenRec) (op : RefreshOp)
    (now : Int) : List RefreshTokenRec :=
  match op with
  | .create data newId => create_refresh_token db data newId now
  | .updateLastUsed tid => update_refresh_token_last_used db tid now
  | .revoke tid => revoke_refresh_token db tid now
  | .revokeByHash h => revoke_refresh_token_by_hash db h now
  | .revokeAllForUser uid => revoke_all_user_refresh_tokens db uid now
  | .cleanup => cleanup_expired_refresh_tokens db now

/-- Rust `create` must use a database-fresh primary key (the `refresh_tokens`
table has a unique id); other operations have no side condition. -/
def opFreshB (db : List RefreshTokenRec) : RefreshOp → Bool
  | .create _ newId => db.all (fun r => r.id != newId)
  | _ => true

/-- Tokens returned to the caller (`AuthTokens` in `services/auth.rs`). -/
structure AuthTokens where
  accessToken : String
  refreshToken : String
  expiresIn : Int
deriving DecidableEq, Repr

/-- Rust `AuthService::refresh_tokens` (`services/auth.rs`).

The JWT signature verification (`jwt.verify_refresh_token`) is a stateless
check modelled by the `sigCheck` argument; `tokenHash` is
`jwt.hash_token(refresh_token)`; `users` is the set of user ids for the
`UserRepository::find_by_id(claims.sub)` lookup; `newId`/`newHash` are the
database id and token hash of the fresh rotation token minted by
`create_tokens` (30-day expiry, `Utc::now() + Duration::days(30)`). -/
def refresh_tokens (db : List RefreshTokenRec) (users : List Nat)
    (sigCheck : Except AppError Unit) (claimsSub : Nat) (tokenHash : String)
    (newId : Nat) (newHash : String) (deviceInfo : Option String)
    (now : Int) : Except AppError (List RefreshTokenRec) :=
  match sigCheck with
  | .error e => .error e
  | .ok _ =>
    match find_refresh_token_by_hash db tokenHash now with
    | none => .error .InvalidCredentials
    | some stored =>
      if stored.isValid now then
        if users.contains claimsSub then
          let db1 := revoke_refresh_token db stored.id now
          .ok (create_refresh_token db1
                ⟨claimsSub, newHash, deviceInfo, now + 2592000⟩ newId now)
        else .error .InvalidCredentials
      else .error .TokenExpired

/-! ## Ephemeral tokens (magic links and password resets)

Embedding of the magic-link / password-reset sections of
`src/api/src/models/token.rs` and `src/api/src/repositories/token.rs`,
and of `AuthService::verify_magic_link` / `complete_password_reset`. -/

/-- A row of the `magic_link_tokens` table (`MagicLinkToken`). -/
structure MagicLinkTokenRec where
  id : Nat
  email : String
  tokenHash : String
  expiresAt : Int
  usedAt : Option Int
  createdAt : Int
deriving DecidableEq, Repr

/-- Rust `MagicLinkToken::is_valid`: not expired and not used. -/
def MagicLinkTokenRec.isValid (r : MagicLinkTokenRec) (now : Int) : Bool :=
  !decide (r.expiresAt < now) && !r.usedAt.isSome

/-- Rust `TokenRepository::find_magic_link_token_by_hash`:
`SELECT * FROM magic_link_tokens WHERE token_hash = $1 AND used_at IS NULL
AND expires_at > NOW()`. -/
def find_magic_link_token_by_hash (db : List MagicLinkTokenRec) (h : String)
    (now : Int) : Option MagicLinkTokenRec :=
  db.find? (fun r => r.tokenHash == h && r.usedAt.isNone
                      && decide (now < r.expiresAt))

/-- Rust `TokenRepository::mark_magic_link_token_used`:
`UPDATE magic_link_tokens SET used_at = NOW() WHERE id = $1`. -/
def mark_magic_link_token_used (db : List MagicLinkTokenRec) (tid : Nat)
    (now : Int) : List MagicLinkTokenRec :=
  db.map (fun r => if r.id = tid then { r with usedAt := some now } else r)

/-- Rust `AuthService::verify_magic_link` (`services/auth.rs`).

After the token is found, validated and marked used, the service finds or
creates the user, mints tokens, updates last-login and writes an audit
row; none of those steps reads or writes the `magic_link_tokens` table, so
they are abstracted as `rest` (their combined outcome). -/
def verify_magic_link (db : List MagicLinkTokenRec)
    (rest : Except AppError AuthTokens) (h : String) (now : Int) :
    Except AppError (List MagicLinkTokenRec × AuthTokens) :=
  match find_magic_link_token_by_hash db h now with
  | none => .error .InvalidCredentials
  | some tok =>
    if tok.isValid now then
      let db1 := mark_magic_link_token_used db tok.id now
      match rest with
      | .error e => .error e
      | .ok tks => .ok (db1, tks)
    else .error .TokenExpired

/-- A row of the `password_reset_tokens` table (`PasswordResetToken`). -/
structure PasswordResetTokenRec where
  id : Nat
  userId : Nat
  tokenHash : String
  expiresAt : Int
  usedAt : Option Int
  createdAt : Int
deriving DecidableEq, Repr

/-- Rust `PasswordResetToken::is_valid`: not expired and not used. -/
def PasswordResetTokenRec.isValid (r : PasswordResetTokenRec) (now : Int) : Bool :=
  !decide (r.expiresAt < now) && !r.usedAt.isSome

/-- Rust `TokenRepository::find_password_reset_token_by_hash`:
`SELECT * FROM password_reset_tokens WHERE token_hash = $1 AND used_at IS
NULL AND expires_at > NOW()`. -/
def find_password_reset_token_by_hash (db : List PasswordResetTokenRec)
    (h : String) (now : Int) : Option PasswordResetTokenRec :=
  db.find? (fun r => r.tokenHash == h && r.usedAt.isNone
                      && decide (now < r.expiresAt))

/-- Rust `TokenRepository::mark_password_reset_token_used`:
`UPDATE password_reset_tokens SET used_at = NOW() WHERE id = $1`. -/
def mark_password_reset_token_used (db : List PasswordResetTokenRec)
    (tid : Nat) (now : Int) : List PasswordResetTokenRec :=
  db.map (fun r => if r.id = tid then { r with usedAt := some now } else r)

/-- A row of the `users` table, restricted to the fields this core reads
(`models/user.rs`, `User`). -/
structure UserRec where
  id : Nat
  email : String
  passwordHash : Option String
  deletedAt : Option Int
deriving DecidableEq, Repr

/-- Rust `User::is_deleted`: `deleted_at.is_some()`. -/
def UserRec.isDeleted (u : UserRec) : Bool := u.deletedAt.isSome

/-- Rust `AuthService::complete_password_reset` (`services/auth.rs`).

The pure password-policy checks (`validate_strength`,
`validate_not_contains_email`) are modelled by the booleans `strengthOk`
and `emailRuleOk`; `userFound` is the result of
`UserRepository::find_by_id(reset_token.user_id)`; the password update
itself touches the `users` table only.  The function returns the updated
`password_reset_tokens` and `refresh_tokens` tables. -/
def complete_password_reset (db : List PasswordResetTokenRec)
    (refreshDb : List RefreshTokenRec) (strengthOk : Bool)
    (userFound : Option UserRec) (emailRuleOk : Bool) (h : String)
    (now : Int) :
    Except AppError (List PasswordResetTokenRec × List RefreshTokenRec) :=
  if strengthOk then
    match find_password_reset_token_by_hash db h now with
    | none => .error .InvalidCredentials
    | some tok =>
      if tok.isValid now then
        match userFound with
        | none => .error (.NotFound "User")
        | some u =>
          if emailRuleOk then
            .ok (mark_password_reset_token_used db tok.id now,
                 revoke_all_user_refresh_tokens refreshDb u.id now)
          else .error (.ValidationError "password" "must not contain email")
      else .error .TokenExpired
  else .error (.ValidationError "password" "too weak")

/-! ## Two concurrent consumers of one ephemeral token

`verify_magic_link` issues its lookup (`find_magic_link_token_by_hash`, a
`SELECT`) and its mark-used (`mark_magic_link_token_used`, an `UPDATE`) as
two separate statements.  To examine the claim that consumption is a
single atomic persistence operation, each of two concurrent callers is
split into exactly these two atomic micro-steps against a shared table. -/

/-- One caller's view: `none` before its `SELECT` ran; afterwards the
snapshot row it fetched (or `none` for no row). -/
structure TwoConsumers where
  db : List MagicLinkTokenRec
  a : Option (Option MagicLinkTokenRec)
  b : Option (Option MagicLinkTokenRec)
deriving DecidableEq, Repr

/-- Caller A executes its `SELECT` step. -/
def stepLookupA (s : TwoConsumers) (h : String) (now : Int) : TwoConsumers :=
  { s with a := some (find_magic_link_token_by_hash s.db h now) }

/-- Caller B executes its `SELECT` step. -/
def stepLookupB (s : TwoConsumers) (h : String) (now : Int) : TwoConsumers :=
  { s with b := some (find_magic_link_token_by_hash s.db h now) }

/-- Caller A executes its `UPDATE ... SET used_at` step (a no-op unless
its lookup fetched a row, mirroring the early `?`-return in the code). -/
def stepMarkA (s : TwoConsumers) (now : Int) : TwoConsumers :=
  match s.a with
  | some (some tok) => { s with db := mark_magic_link_token_used s.db tok.id now }
  | _ => s

/-- Caller B executes its `UPDATE ... SET used_at` step. -/
def stepMarkB (s : TwoConsumers) (now : Int) : TwoConsumers :=
  match s.b with
  | some (some tok) => { s with db := mark_magic_link_token_used s.db tok.id now }
  | _ => s

/-- Whether a caller's `verify_magic_link` run reports success: its lookup
fetched a row and the snapshot passed `is_valid` (the remaining service
steps do not consult the token again). -/
def consumerSucceeds (c : Option (Option MagicLinkTokenRec)) (now : Int) : Bool :=
  match c with
  | some (some tok) => tok.isValid now
  | _ => false

/-! ## Rate limiter

Embedding of `src/api/src/models/rate_limit.rs` and
`src/api/src/repositories/rate_limit.rs`.  A `rate_limits` row is keyed by
the unique pair `(key, action)`; the atomic
`INSERT ... ON CONFLICT ... DO UPDATE ... RETURNING count` upsert becomes
a pure transformation of the table. -/

/-- Rust `RateLimitConfig` (`models/rate_limit.rs`). -/
structure RateLimitConfig where
  action : String
  maxRequests : Int
  windowSeconds : Int
deriving DecidableEq, Repr

/-- The mutable columns of a `rate_limits` row. -/
structure RateWindow where
  count : Int
  windowStart : Int
deriving DecidableEq, Repr

/-- The `rate_limits` table, keyed by the unique `(key, action)` pair. -/
abbrev RateDb := List ((String × String) × RateWindow)

/-- Rust `RateLimitRepository::check_and_increment`: the atomic upsert.
If no row exists for `(key, action)` it inserts one with count 1 and
window start `NOW()`; on conflict, a stale window
(`window_start < NOW() - window_seconds`) is reset to count 1 starting
now, otherwise the count is incremented and the window start kept.
Returns `(count, count > max_requests)` and the updated table. -/
def check_and_increment (db : RateDb) (key : String) (cfg : RateLimitConfig)
    (now : Int) : (Int × Bool) × RateDb :=
  let cutoff := now - cfg.windowSeconds
  match alookup db (key, cfg.action) with
  | none =>
      ((1, decide ((1 : Int) > cfg.maxRequests)),
       ainsert db (key, cfg.action) ⟨1, now⟩)
  | some w =>
      if w.windowStart < cutoff then
        ((1, decide ((1 : Int) > cfg.maxRequests)),
         ainsert db (key, cfg.action) ⟨1, now⟩)
      else
        ((w.count + 1, decide (w.count + 1 > cfg.maxRequests)),
         ainsert db (key, cfg.action) ⟨w.count + 1, w.windowStart⟩)

/-- Rust `RateLimitRepository::check`: the non-mutating variant.
`SELECT COALESCE((SELECT count ... WHERE key = $1 AND action = $2 AND
window_start >= $3), 0)`; returns `(count, count >= max_requests)`. -/
def rl_check (db : RateDb) (key : String) (cfg : RateLimitConfig)
    (now : Int) : Int × Bool :=
  let cutoff := now - cfg.windowSeconds
  let count :=
    match alookup db (key, cfg.action) with
    | some w => if cutoff ≤ w.windowStart then w.count else 0
    | none => 0
  (count, decide (count ≥ cfg.maxRequests))

/-- Rust `RateLimitRepository::get_retry_after`: seconds until the current
window resets, clamped at zero. -/
def get_retry_after (db : RateDb) (key : String) (cfg : RateLimitConfig)
    (now : Int) : Nat :=
  match alookup db (key, cfg.action) with
  | some w => ((w.windowStart + cfg.windowSeconds - now).toNat)
  | none => 0

/-- Iterate `check_and_increment` over a list of request times,
threading the table. -/
def runRequests (db : RateDb) (key : String) (cfg : RateLimitConfig) :
    List Int → RateDb
  | [] => db
  | t :: rest => runRequests (check_and_increment db key cfg t).2 key cfg rest

/-! ## Auto-ban middleware

Embedding of `src/api/src/middleware/auto_ban.rs`. -/

/-- Rust `SuspiciousPatterns`: the four static rule families. -/
structure SuspiciousPatterns where
  suffixList : List String
  prefixList : List String
  exactList : List String
  containsList : List String
deriving DecidableEq, Repr

/-- Rust `SuspiciousPatterns::default_patterns()`: the rule set, transcribed
verbatim from `auto_ban.rs`. -/
def default_patterns : SuspiciousPatterns where
  suffixList :=
    [".php", ".phtml", ".phar", ".asp", ".aspx", ".ashx", ".asmx",
     ".jsp", ".jspx", ".do", ".action", ".cgi", ".pl", ".cfm", ".cfc",
     ".bak", ".backup", ".save", ".old", ".orig", ".swp", ".tmp",
     ".sql", ".sql.gz", ".log", ".conf", ".ini",
     ".yml", ".yaml", ".toml", ".xml",
     ".sh", ".bash", ".bat", ".cmd",
     ".tar", ".tar.gz", ".tgz", ".zip", ".rar", ".7z", ".gz", ".bz2"]
  prefixList :=
    ["/wp-", "/wordpress/", "/blog/wp-", "/joomla/", "/administrator/",
     "/drupal/", "/magento/", "/downloader/", "/cms/",
     "/phpmyadmin/", "/pma/", "/myadmin/", "/mysql/", "/dbadmin/",
     "/phpMyAdmin/",
     "/aws-credentials", "/credentials", "/config.php",
     "/api/swagger", "/swagger", "/api-docs",
     "/actuator", "/jolokia/", "/console/", "/manager/",
     "/host-manager/", "/debug", "/dump",
     "/node_modules/", "/test/", "/tmp/", "/backup/", "/backups/",
     "/src/"]
  exactList :=
    ["/server-info", "/server-status", "/xmlrpc.php",
     "/database.yml", "/secrets.json", "/secrets.yml",
     "/docker.sh", "/Dockerfile", "/package.json", "/package-lock.json",
     "/api/info", "/api/config", "/api/debug", "/api/env",
     "/graphql", "/trace", "/test"]
  containsList := ["../"]

/-- Rust `char::to_ascii_lowercase` on one character. -/
def asciiLowerChar (c : Char) : Char :=
  if 'A' ≤ c ∧ c ≤ 'Z' then Char.ofNat (c.toNat + 32) else c

/-- Rust `str::to_ascii_lowercase`. -/
def asciiLower (s : String) : String := ⟨s.data.map asciiLowerChar⟩

/-- Rust `str::starts_with(pat)` for the haystack/needle char lists:
`needle` is an initial segment of `hay`. -/
def beginsWith : List Char → List Char → Bool
  | _, [] => true
  | [], _ :: _ => false
  | a :: as, b :: bs => a == b && beginsWith as bs

/-- Rust `str::contains(pat)`: `needle` occurs contiguously in `hay`. -/
def occursIn (needle : List Char) : List Char → Bool
  | [] => needle.isEmpty
  | c :: t => beginsWith (c :: t) needle || occursIn needle t

/-- Rust `SuspiciousPatterns::matches`: exact (case-sensitive), then prefix
(case-sensitive), then suffix on the ASCII-lowercased path, then
substring-contains; suspicious if any rule of any kind matches. -/
def SuspiciousPatterns.matchesPath (sp : SuspiciousPatterns) (path : String) : Bool :=
  let lower := asciiLower path
  sp.exactList.contains path
  || sp.prefixList.any (fun q => beginsWith path.data q.data)
  || sp.suffixList.any (fun q => beginsWith lower.data.reverse q.data.reverse)
  || sp.containsList.any (fun q => occursIn q.data path.data)

/-- Rust `AutoBanConfig` (`config.rs`): threshold, window, ban duration. -/
structure AutoBanConfig where
  enabled : Bool
  threshold : Nat
  windowSecs : Nat
  banDurationSecs : Nat
deriving DecidableEq, Repr

/-- In-memory `BanEntry`. -/
structure BanEntry where
  reason : String
  expiresAt : Int
deriving DecidableEq, Repr

/-- In-memory `StrikeEntry`. -/
structure StrikeEntry where
  count : Nat
  firstSeen : Int
  lastPath : String
deriving DecidableEq, Repr

/-- The two `RwLock`-protected maps of `AutoBanService` (addresses are
opaque strings here). -/
structure AutoBanState where
  banned : List (String × BanEntry)
  strikes : List (String × StrikeEntry)
deriving DecidableEq, Repr

/-- Rust `AutoBanService::is_banned`: the address has a ban entry whose expiry
is still in the future (an expired entry is lazily treated as absent). -/
def is_banned (st : AutoBanState) (ip : String) (now : Int) : Bool :=
  match alookup st.banned ip with
  | some e => decide (now < e.expiresAt)
  | none => false

/-- Rust `AutoBanService::is_suspicious`. -/
def is_suspicious (path : String) : Bool :=
  default_patterns.matchesPath path

/-- Rust `AutoBanService::record_strike`: fetch-or-default the strike entry,
reset it if the tracking window elapsed, increment, and either ban (once
the count reaches the threshold: insert the ban, drop the strikes, report
`true`) or store the strike back (report `false`).  The asynchronous
database persistence of the ban does not affect the in-memory state. -/
def record_strike (st : AutoBanState) (cfg : AutoBanConfig) (ip : String)
    (path : String) (now : Int) : Bool × AutoBanState :=
  let window : Int := (cfg.windowSecs : Int)
  let entry0 := (alookup st.strikes ip).getD ⟨0, now, ""⟩
  let entry1 := if now - entry0.firstSeen > window
                then { entry0 with count := 0, firstSeen := now }
                else entry0
  let entry2 : StrikeEntry := ⟨entry1.count + 1, entry1.firstSeen, path⟩
  if cfg.threshold ≤ entry2.count then
    let reason := "Auto-banned after " ++ toString entry2.count
                    ++ " suspicious requests (last: " ++ path ++ ")"
    let expiresAt := now + (cfg.banDurationSecs : Int)
    (true, ⟨ainsert st.banned ip ⟨reason, expiresAt⟩, aerase st.strikes ip⟩)
  else
    (false, ⟨st.banned, ainsert st.strikes ip entry2⟩)

/-- Rust `AutoBanService::cleanup_expired`: drop expired bans and stale
strike entries. -/
def cleanup_expired (st : AutoBanState) (cfg : AutoBanConfig)
    (now : Int) : AutoBanState where
  banned := st.banned.filter (fun p => decide (now < p.2.expiresAt))
  strikes := st.strikes.filter
    (fun p => decide (now - p.2.firstSeen ≤ (cfg.windowSecs : Int)))

/-- Rust `AutoBanService::load_bans`: seed the in-memory map from rows. -/
def load_bans (st : AutoBanState) (rows : List (String × BanEntry)) : AutoBanState :=
  { st with banned := rows.foldl (fun m p => ainsert m p.1 p.2) st.banned }

/-- The service with empty maps, as built by `AutoBanService::new`. -/
def emptyAutoBanState : AutoBanState := ⟨[], []⟩

/-- Outcome of the middleware for one request. -/
inductive MwOutcome where
  | forbidden
  | passed
deriving DecidableEq, Repr

/-- Rust `AutoBanMiddlewareService::call`: pass through when the feature is
disabled; otherwise, when a client IP was extracted, reject a banned IP
immediately, and reject a suspicious path after recording a strike
(whether or not that strike newly banned the IP); all other requests pass
through to the inner service. -/
def middleware_call (st : AutoBanState) (cfg : AutoBanConfig)
    (ip : Option String) (path : String) (now : Int) :
    MwOutcome × AutoBanState :=
  if !cfg.enabled then (.passed, st)
  else
    match ip with
    | none => (.passed, st)
    | some ip =>
      if is_banned st ip now then (.forbidden, st)
      else if is_suspicious path then
        (.forbidden, (record_strike st cfg ip path now).2)
      else (.passed, st)

/-- Apply a list of strike events `(ip, path, time)` in order. -/
def runStrikes (st : AutoBanState) (cfg : AutoBanConfig) :
    List (String × String × Int) → AutoBanState
  | [] => st
  | (ip, path, t) :: rest =>
      runStrikes (record_strike st cfg ip path t).2 cfg rest

/-- Number of strike events in a list that belong to one address. -/
def countAddr (evs : List (String × String × Int)) (a : String) : Nat :=
  (evs.filter (fun e => e.1 == a)).length

/-- Current strike count of an address (0 when it has no entry). -/
def strikeCount (st : AutoBanState) (a : String) : Nat :=
  match alookup st.strikes a with
  | some e => e.count
  | none => 0

/-- Whether the banned map holds an entry for the address (regardless of
expiry). -/
def bannedKey (st : AutoBanState) (a : String) : Bool :=
  (alookup st.banned a).isSome

/-! ## Login / issuance observables

Embedding of `AuthService::login` and `AuthService::request_password_reset`
(`services/auth.rs`) and of the issuance handlers
`request_magic_link` / `request_password_reset` (`handlers/auth.rs`),
restricted to what the requester can observe. -/

/-- Rust `AuthService::login`: find the user by email, reject deleted users,
reject users without a password hash (magic-link-only accounts), verify
the password (`passwordMatches` models `PasswordService::verify`), then
mint tokens.  Token creation, last-login update and audit logging are
abstracted by `tokens` (their success value). -/
def login (userOpt : Option UserRec) (passwordMatches : Bool)
    (tokens : AuthTokens) : Except AppError (AuthTokens × UserRec) :=
  match userOpt with
  | none => .error .InvalidCredentials
  | some user =>
    if user.isDeleted then .error .InvalidCredentials
    else
      match user.passwordHash with
      | none => .error .InvalidCredentials
      | some _ =>
        if !passwordMatches then .error .InvalidCredentials
        else .ok (tokens, user)

/-- Rust `AuthService::request_password_reset`: returns `Ok(None)` without
creating anything when the email is unknown or the account has no
password; otherwise stores a reset token and returns it. -/
def request_password_reset (userOpt : Option UserRec) (newToken : String) :
    Except AppError (Option String) :=
  match userOpt with
  | none => .ok none
  | some user =>
    if user.passwordHash.isNone then .ok none
    else .ok (some newToken)

/-- Rust `AuthService::request_magic_link`: always stores a token for the
submitted email (whether or not a user exists) and returns it. -/
def request_magic_link (newToken : String) : Except AppError String :=
  .ok newToken

/-- What the HTTP client can observe of an issuance response. -/
structure HttpObservable where
  status : Nat
  success : Bool
  hasData : Bool
deriving DecidableEq, Repr

/-- Handler `request_password_reset` (`handlers/auth.rs`): if the service
returned a token, an email send is spawned in the background (invisible to
the requester); the response is always `202 Accepted` with
`success: true` and no data. -/
def request_password_reset_handler (svc : Except AppError (Option String)) :
    Except AppError HttpObservable :=
  match svc with
  | .error e => .error e
  | .ok _ => .ok ⟨202, true, false⟩

/-- Handler `request_magic_link` (`handlers/auth.rs`): the email send is
spawned in the background; the response is always `202 Accepted` with
`success: true` and no data. -/
def request_magic_link_handler (svc : Except AppError String) :
    Except AppError HttpObservable :=
  match svc with
  | .error e => .error e
  | .ok _ => .ok ⟨202, true, false⟩

/-! ## Client metadata extraction

Embedding of `extract_device_info` (`middleware/auth.rs`).  A header
value is a byte sequence; `HeaderValue::to_str` succeeds exactly when
every byte is visible ASCII (32–126) or tab, and Rust's byte slicing
`&s[..256]` panics unless byte 256 falls on a UTF-8 character boundary.
The panic possibility is modelled by an outer `Option` layer (`none` =
panic). -/

/-- The `http` crate's `is_visible_ascii` check behind
`HeaderValue::to_str`. -/
def isVisibleAscii (b : Nat) : Bool := (32 ≤ b && b < 127) || b == 9

/-- Rust `HeaderValue::to_str().ok()`. -/
def headerToStr (bs : List Nat) : Option (List Nat) :=
  if bs.all isVisibleAscii then some bs else none

/-- Rust `&s[..i]` on a UTF-8 string viewed as bytes: defined when `i`
is the length or a character boundary (the byte at `i` is not a UTF-8
continuation byte); `none` models the slicing panic. -/
def byteSliceTo (bs : List Nat) (i : Nat) : Option (List Nat) :=
  if i < bs.length then
    if bs.getD i 0 < 128 || 192 ≤ bs.getD i 0 then some (bs.take i) else none
  else if i = bs.length then some bs
  else none

/-- Rust `extract_device_info`: read the `User-Agent` header if present,
convert it to a string, and truncate to 256 bytes when longer.  The
result is `some (some s)` for a descriptor, `some none` when the header
is absent or not visible ASCII, and `none` only if the slicing panicked. -/
def extract_device_info (ua : Option (List Nat)) : Option (Option (List Nat)) :=
  match ua with
  | none => some none
  | some bs =>
    match headerToStr bs with
    | none => some none
    | some s =>
      if s.length > 256 then (byteSliceTo s 256).map some
      else some (some s)

/-! ## Helper lemmas -/

theorem alookup_ainsert_self {κ β : Type} [DecidableEq κ]
    (l : List (κ × β)) (k : κ) (v : β) : alookup (ainsert l k v) k = some v := by
  induction l with
  | nil => simp [ainsert, alookup]
  | cons p t ih =>
      obtain ⟨pk, pv⟩ := p
      by_cases h : pk = k
      · simp [ainsert, alookup, h]
      · simp [ainsert, alookup, h, ih]

theorem alookup_ainsert_ne {κ β : Type} [DecidableEq κ]
    (l : List (κ × β)) (k k' : κ) (v : β) (h : k' ≠ k) :
    alookup (ainsert l k v) k' = alookup l k' := by
  have hk : ¬ k = k' := fun e => h e.symm
  induction l with
  | nil => simp [ainsert, alookup, hk]
  | cons p t ih =>
      obtain ⟨pk, pv⟩ := p
      by_cases hp : pk = k
      · subst hp
        simp [ainsert, alookup, hk]
      · simp [ainsert, alookup, hp, ih]

theorem alookup_aerase_ne {κ β : Type} [DecidableEq κ]
    (l : List (κ × β)) (k k' : κ) (h : k' ≠ k) :
    alookup (aerase l k) k' = alookup l k' := by
  have hk : ¬ k = k' := fun e => h e.symm
  induction l with
  | nil => simp [aerase]
  | cons p t ih =>
      obtain ⟨pk, pv⟩ := p
      by_cases hp : pk = k
      · subst hp
        simp [aerase, alookup, hk]
      · simp [aerase, alookup, hp, ih]

/-! ## Claim theorems -/

/-- C8: the path classifier is a pure function for which `/wp-login.php`
and `/../../etc/passwd` are suspicious while `/v1/auth/login` and
`/assets/index-abc123.js` are not, and in general a path is suspicious iff
it matches at least one rule of the four match kinds (exact string,
prefix, case-insensitive suffix, substring-contains). -/
theorem suspicious_path_classifier_spec (p : String) :
    is_suspicious "/wp-login.php" = true
    ∧ is_suspicious "/../../etc/passwd" = true
    ∧ is_suspicious "/v1/auth/login" = false
    ∧ is_suspicious "/assets/index-abc123.js" = false
    ∧ (∀ sp : SuspiciousPatterns, sp.matchesPath p = true ↔
        (p ∈ sp.exactList
         ∨ (∃ q ∈ sp.prefixList, beginsWith p.data q.data = true)
         ∨ (∃ q ∈ sp.suffixList,
              beginsWith (asciiLower p).data.reverse q.data.reverse = true)
         ∨ (∃ q ∈ sp.containsList, occursIn q.data p.data = true)))
    ∧ is_suspicious p = default_patterns.matchesPath p := by
  refine ⟨by decide, by decide, by decide, by decide, ?_, rfl⟩
  intro sp
  simp only [SuspiciousPatterns.matchesPath, Bool.or_eq_true, List.any_eq_true,
    List.contains_eq_any_beq, beq_iff_eq]
  constructor
  · rintro (((⟨x, hx, rfl⟩ | h) | h) | h)
    · exact Or.inl hx
    · exact Or.inr (Or.inl h)
    · exact Or.inr (Or.inr (Or.inl h))
    · exact Or.inr (Or.inr (Or.inr h))
  · rintro (hx | h | h | h)
    · exact Or.inl (Or.inl (Or.inl ⟨p, hx, rfl⟩))
    · exact Or.inl (Or.inl (Or.inr h))
    · exact Or.inl (Or.inr h)
    · exact Or.inr h

/-- C10: for every possible `User-Agent` header value, extracting the
device descriptor is total (the byte-slice truncation can never panic,
because `to_str` admits only single-byte visible-ASCII characters) and
any returned descriptor has at most 256 characters. -/
theorem device_info_total_bounded (ua : Option (List Nat)) :
    (extract_device_info ua).isSome = true
    ∧ (∀ s, extract_device_info ua = some (some s) → s.length ≤ 256) := by
  cases ua with
  | none => simp [extract_device_info]
  | some bs =>
    by_cases hall : bs.all isVisibleAscii = true
    · have hts : headerToStr bs = some bs := by simp [headerToStr, hall]
      by_cases hlen : bs.length > 256
      · have h256 : 256 < bs.length := by omega
        have hgd : bs.getD 256 0 = bs[256] := List.getD_eq_getElem bs 0 h256
        have hvis : isVisibleAscii bs[256] = true :=
          List.all_eq_true.mp hall _ (List.getElem_mem h256)
        have hlt : bs.getD 256 0 < 128 := by
          rw [hgd]
          simp [isVisibleAscii] at hvis
          omega
        have hslice : byteSliceTo bs 256 = some (bs.take 256) := by
          have hcond : (decide (bs.getD 256 0 < 128)
              || decide (192 ≤ bs.getD 256 0)) = true := by
            simp only [Bool.or_eq_true, decide_eq_true_eq]
            exact Or.inl hlt
          simp only [byteSliceTo]
          rw [if_pos h256, if_pos hcond]
        constructor
        · simp [extract_device_info, hts, hlen, hslice]
        · intro s hs
          simp [extract_device_info, hts, hlen, hslice] at hs
          subst hs
          simp
      · constructor
        · simp [extract_device_info, hts, hlen]
        · intro s hs
          simp [extract_device_info, hts, hlen] at hs
          subst hs
          omega
    · have hts : headerToStr bs = none := by simp [headerToStr, hall]
      simp [extract_device_info, hts]

/-- C9: login never reveals whether the submitted identity exists (the
unknown-identity and wrong-credential paths return the identical
`InvalidCredentials` failure, for every account shape), and magic-link /
password-reset issuance always reports the same `202 Accepted` success
response whether or not a reset record was created internally. -/
theorem identity_existence_not_revealed (u : UserRec) (pm : Bool)
    (tokens : AuthTokens) (userOpt : Option UserRec) (t₁ t₂ : String) :
    login none pm tokens = .error .InvalidCredentials
    ∧ login (some u) false tokens = .error .InvalidCredentials
    ∧ login none pm tokens = login (some u) false tokens
    ∧ request_password_reset_handler (request_password_reset userOpt t₁)
        = .ok ⟨202, true, false⟩
    ∧ request_magic_link_handler (request_magic_link t₂)
        = .ok ⟨202, true, false⟩ := by
  have hlogin : login (some u) false tokens = .error .InvalidCredentials := by
    obtain ⟨uid, uem, uph, udel⟩ := u
    cases uph <;> cases udel <;>
      simp [login, UserRec.isDeleted]
  refine ⟨by simp [login], hlogin, by rw [hlogin]; simp [login], ?_, by rfl⟩
  cases userOpt with
  | none => rfl
  | some user =>
      by_cases hph : user.passwordHash.isNone <;>
        simp [request_password_reset, request_password_reset_handler, hph]

/-- C7 counterexample: with the `login` configuration (max 5 per 60 s) and
a live window holding exactly `count = max = 5`, the non-mutating `check`
reports `exceeded = true` even though `count > max` is false, so the
claimed `count > max` characterisation fails for the `check` variant. -/
theorem check_exceeded_at_max_counterexample :
    (rl_check [(("alice", "login"), ⟨5, 100⟩)] "alice" ⟨"login", 5, 60⟩ 100).2 = true
    ∧ ¬((rl_check [(("alice", "login"), ⟨5, 100⟩)] "alice" ⟨"login", 5, 60⟩ 100).1
          > (5 : Int)) := by
  constructor
  · rfl
  · decide

/-- C7 (amended): `check_and_increment` flags `exceeded` iff the returned
count is strictly greater than the configured maximum, while the
non-mutating `check` flags `exceeded` iff its count is greater than or
equal to the maximum. -/
theorem exceeded_flag_semantics (db : RateDb) (key : String)
    (cfg : RateLimitConfig) (now : Int) :
    ((check_and_increment db key cfg now).1.2 = true
      ↔ (check_and_increment db key cfg now).1.1 > cfg.maxRequests)
    ∧ ((rl_check db key cfg now).2 = true
      ↔ (rl_check db key cfg now).1 ≥ cfg.maxRequests) := by
  constructor
  · cases h : alookup db (key, cfg.action) with
    | none => simp [check_and_increment, h]
    | some w =>
        by_cases hw : w.windowStart < now - cfg.windowSeconds <;>
          simp [check_and_increment, h, hw]
  · cases h : alookup db (key, cfg.action) with
    | none => simp [rl_check, h]
    | some w =>
        by_cases hw : now - cfg.windowSeconds ≤ w.windowStart <;>
          simp [rl_check, h, hw]

/-- C5 counterexample: a request whose path is suspicious but from which
no client IP could be extracted is passed through by the middleware (with
no strike recorded), contradicting the claim that every inbound
suspicious request is rejected. -/
theorem middleware_no_ip_suspicious_passes :
    is_suspicious "/wp-login.php" = true
    ∧ middleware_call emptyAutoBanState ⟨true, 5, 3600, 86400⟩ none
        "/wp-login.php" 0 = (.passed, emptyAutoBanState) := by
  constructor
  · decide
  · rfl

/-- C5 (amended): when auto-ban is enabled and a client IP was extracted
from the request, the middleware first checks `is_banned` and rejects a
banned IP immediately with no state change; otherwise a suspicious path
has a strike recorded and is rejected regardless of whether that strike
produced a new ban; all other requests pass through unchanged. -/
theorem middleware_checks_ban_then_pattern (st : AutoBanState)
    (cfg : AutoBanConfig) (ip path : String) (now : Int)
    (hen : cfg.enabled = true) :
    middleware_call st cfg (some ip) path now
      = (if is_banned st ip now then (MwOutcome.forbidden, st)
         else if is_suspicious path then
           (MwOutcome.forbidden, (record_strike st cfg ip path now).2)
         else (MwOutcome.passed, st)) := by
  simp [middleware_call, hen]

/-- Witness for the C5 amended theorem at a concrete request. -/
theorem middleware_checks_ban_then_pattern_witness :
    (⟨true, 5, 3600, 86400⟩ : AutoBanConfig).enabled = true
    ∧ middleware_call emptyAutoBanState ⟨true, 5, 3600, 86400⟩
        (some "203.0.113.7") "/wp-login.php" 7
      = (if is_banned emptyAutoBanState "203.0.113.7" 7
         then (MwOutcome.forbidden, emptyAutoBanState)
         else if is_suspicious "/wp-login.php" then
           (MwOutcome.forbidden,
            (record_strike emptyAutoBanState ⟨true, 5, 3600, 86400⟩
              "203.0.113.7" "/wp-login.php" 7).2)
         else (MwOutcome.passed, emptyAutoBanState)) :=
  ⟨rfl, middleware_checks_ban_then_pattern emptyAutoBanState
    ⟨true, 5, 3600, 86400⟩ "203.0.113.7" "/wp-login.php" 7 rfl⟩

/-- C3: because `verify_magic_link` issues its lookup (`SELECT`) and its
mark-used (`UPDATE`) as two separate persistence statements, the
interleaving lookup-A, lookup-B, mark-A, mark-B of two concurrent
consumers presenting the same valid raw token lets BOTH report success —
the lookup-and-mark step is not one atomic update-returning operation. -/
theorem double_consume_interleaving_both_succeed :
    consumerSucceeds
      (stepMarkB (stepMarkA (stepLookupB (stepLookupA
        ⟨[⟨1, "user@example.com", "h", 100, none, 0⟩], none, none⟩
        "h" 50) "h" 50) 50) 50).a 50 = true
    ∧ consumerSucceeds
      (stepMarkB (stepMarkA (stepLookupB (stepLookupA
        ⟨[⟨1, "user@example.com", "h", 100, none, 0⟩], none, none⟩
        "h" 50) "h" 50) 50) 50).b 50 = true := by
  constructor <;> rfl

/-- Requests that stay within the window of an existing `(key, action)`
row increment its count one by one and never move the window start. -/
theorem runRequests_steady (key : String) (cfg : RateLimitConfig) (t₀ : Int) :
    ∀ (ts : List Int) (db : RateDb) (c : Int),
      alookup db (key, cfg.action) = some ⟨c, t₀⟩ →
      ts.all (fun t => decide (t - t₀ ≤ cfg.windowSeconds)) = true →
      alookup (runRequests db key cfg ts) (key, cfg.action)
        = some ⟨c + ts.length, t₀⟩ := by
  intro ts
  induction ts with
  | nil =>
      intro db c h _
      simpa [runRequests] using h
  | cons t rest ih =>
      intro db c h hall
      have hhead : t - t₀ ≤ cfg.windowSeconds := by
        have := List.all_eq_true.mp hall t (by simp)
        simpa using this
      have htail : rest.all (fun t => decide (t - t₀ ≤ cfg.windowSeconds)) = true := by
        rw [List.all_eq_true] at hall ⊢
        intro x hx
        exact hall x (by simp [hx])
      have hnostale : ¬ ((⟨c, t₀⟩ : RateWindow).windowStart < t - cfg.windowSeconds) := by
        simp only [RateWindow.mk.injEq]
        omega
      have hstep : (check_and_increment db key cfg t).2
          = ainsert db (key, cfg.action) ⟨c + 1, t₀⟩ := by
        simp [check_and_increment, h, hnostale]
      simp only [runRequests, hstep]
      rw [ih (ainsert db (key, cfg.action) ⟨c + 1, t₀⟩) (c + 1)
        (alookup_ainsert_self _ _ _) htail]
      congr 2
      simp only [List.length_cons]
      push_cast
      ring

/-- C6: `check_and_increment` has the fixed-window semantics — a missing
window is created with count 1, a window older than the window length is
reset to count 1 and restarted, and otherwise the count is incremented
with the start kept; consequently the Nth request within one window
returns count N. -/
theorem fixed_window_semantics
    (db₁ db₂ db₃ db : RateDb) (key₁ key₂ key₃ key : String)
    (cfg : RateLimitConfig) (now₁ now₂ now₃ : Int) (w₂ w₃ : RateWindow)
    (t₀ tN : Int) (front : List Int)
    (h1 : alookup db₁ (key₁, cfg.action) = none)
    (h2a : alookup db₂ (key₂, cfg.action) = some w₂)
    (h2b : w₂.windowStart < now₂ - cfg.windowSeconds)
    (h3a : alookup db₃ (key₃, cfg.action) = some w₃)
    (h3b : ¬ w₃.windowStart < now₃ - cfg.windowSeconds)
    (hn : alookup db (key, cfg.action) = none)
    (hwin : (front ++ [tN]).all
      (fun t => decide (t - t₀ ≤ cfg.windowSeconds)) = true) :
    check_and_increment db₁ key₁ cfg now₁
      = ((1, decide ((1 : Int) > cfg.maxRequests)),
         ainsert db₁ (key₁, cfg.action) ⟨1, now₁⟩)
    ∧ check_and_increment db₂ key₂ cfg now₂
      = ((1, decide ((1 : Int) > cfg.maxRequests)),
         ainsert db₂ (key₂, cfg.action) ⟨1, now₂⟩)
    ∧ check_and_increment db₃ key₃ cfg now₃
      = ((w₃.count + 1, decide (w₃.count + 1 > cfg.maxRequests)),
         ainsert db₃ (key₃, cfg.action) ⟨w₃.count + 1, w₃.windowStart⟩)
    ∧ (check_and_increment (runRequests db key cfg (t₀ :: front)) key cfg tN).1.1
        = ((t₀ :: front).length : Int) + 1 := by
  refine ⟨by simp [check_and_increment, h1], ?_, ?_, ?_⟩
  · simp [check_and_increment, h2a, h2b]
  · simp [check_and_increment, h3a, h3b]
  · have hfront : front.all (fun t => decide (t - t₀ ≤ cfg.windowSeconds)) = true := by
      rw [List.all_eq_true] at hwin ⊢
      intro x hx
      exact hwin x (by simp [hx])
    have hlastwin : tN - t₀ ≤ cfg.windowSeconds := by
      have := List.all_eq_true.mp hwin tN (by simp)
      simpa using this
    have hstep0 : (check_and_increment db key cfg t₀).2
        = ainsert db (key, cfg.action) ⟨1, t₀⟩ := by
      simp [check_and_increment, hn]
    have hrun : alookup (runRequests db key cfg (t₀ :: front)) (key, cfg.action)
        = some ⟨1 + front.length, t₀⟩ := by
      simp only [runRequests, hstep0]
      exact runRequests_steady key cfg t₀ front _ 1
        (alookup_ainsert_self _ _ _) hfront
    have hnostale : ¬ ((⟨1 + front.length, t₀⟩ : RateWindow).windowStart
        < tN - cfg.windowSeconds) := by
      simp only
      omega
    simp [check_and_increment, hrun, hnostale]
    ring

/-- Witness for the C6 theorem at concrete tables and request times. -/
theorem fixed_window_semantics_witness :
    alookup ([] : RateDb) ("k1", "login") = none
    ∧ alookup [(("k2", "login"), (⟨3, 0⟩ : RateWindow))] ("k2", "login")
        = some ⟨3, 0⟩
    ∧ ((⟨3, 0⟩ : RateWindow).windowStart < 100 - (60 : Int))
    ∧ alookup [(("k3", "login"), (⟨2, 80⟩ : RateWindow))] ("k3", "login")
        = some ⟨2, 80⟩
    ∧ ¬ ((⟨2, 80⟩ : RateWindow).windowStart < 100 - (60 : Int))
    ∧ alookup ([] : RateDb) ("k", "login") = none
    ∧ (([10, 20] ++ [30]).all
        (fun t => decide (t - (0 : Int) ≤ (60 : Int))) = true)
    ∧ (check_and_increment [] "k1" ⟨"login", 5, 60⟩ 100
        = ((1, decide ((1 : Int) > (5 : Int))),
           ainsert [] ("k1", "login") ⟨1, 100⟩)
      ∧ check_and_increment [(("k2", "login"), ⟨3, 0⟩)] "k2" ⟨"login", 5, 60⟩ 100
        = ((1, decide ((1 : Int) > (5 : Int))),
           ainsert [(("k2", "login"), ⟨3, 0⟩)] ("k2", "login") ⟨1, 100⟩)
      ∧ check_and_increment [(("k3", "login"), ⟨2, 80⟩)] "k3" ⟨"login", 5, 60⟩ 100
        = (((2 : Int) + 1, decide ((2 : Int) + 1 > (5 : Int))),
           ainsert [(("k3", "login"), ⟨2, 80⟩)] ("k3", "login") ⟨(2 : Int) + 1, 80⟩)
      ∧ (check_and_increment (runRequests [] "k" ⟨"login", 5, 60⟩ (0 :: [10, 20]))
          "k" ⟨"login", 5, 60⟩ 30).1.1 = (((0 : Int) :: [10, 20]).length : Int) + 1) :=
  ⟨by decide, by decide, by decide, by decide, by decide, by decide, by decide,
   fixed_window_semantics [] [(("k2", "login"), ⟨3, 0⟩)]
     [(("k3", "login"), ⟨2, 80⟩)] [] "k1" "k2" "k3" "k" ⟨"login", 5, 60⟩
     100 100 100 ⟨3, 0⟩ ⟨2, 80⟩ 0 30 [10, 20]
     (by decide) (by decide) (by decide) (by decide) (by decide) (by decide)
     (by decide)⟩

/-- After a fetched magic-link token is marked used, no record with its
hash is fetchable any more (assuming the unique hash constraint). -/
theorem find_magic_after_mark (db : List MagicLinkTokenRec)
    (tok : MagicLinkTokenRec) (h : String) (t t' : Int)
    (hfind : find_magic_link_token_by_hash db h t = some tok)
    (huniq : db.all (fun q => !(q.tokenHash == h) || decide (q = tok)) = true) :
    find_magic_link_token_by_hash (mark_magic_link_token_used db tok.id t) h t'
      = none := by
  unfold find_magic_link_token_by_hash at hfind ⊢
  rw [List.find?_eq_none]
  intro q hq
  obtain ⟨p, hp, rfl⟩ := List.mem_map.mp hq
  by_cases hid : p.id = tok.id
  · simp [hid]
  · have hu := List.all_eq_true.mp huniq p hp
    simp only [Bool.or_eq_true, Bool.not_eq_true', beq_eq_false_iff_ne,
      decide_eq_true_eq] at hu
    rcases hu with hne | rfl
    · simp [hid, hne]
    · exact absurd rfl hid

/-- After a fetched password-reset token is marked used, no record with
its hash is fetchable any more (assuming the unique hash constraint). -/
theorem find_reset_after_mark (db : List PasswordResetTokenRec)
    (tok : PasswordResetTokenRec) (h : String) (t t' : Int)
    (hfind : find_password_reset_token_by_hash db h t = some tok)
    (huniq : db.all (fun q => !(q.tokenHash == h) || decide (q = tok)) = true) :
    find_password_reset_token_by_hash
      (mark_password_reset_token_used db tok.id t) h t' = none := by
  unfold find_password_reset_token_by_hash at hfind ⊢
  rw [List.find?_eq_none]
  intro q hq
  obtain ⟨p, hp, rfl⟩ := List.mem_map.mp hq
  by_cases hid : p.id = tok.id
  · simp [hid]
  · have hu := List.all_eq_true.mp huniq p hp
    simp only [Bool.or_eq_true, Bool.not_eq_true', beq_eq_false_iff_ne,
      decide_eq_true_eq] at hu
    rcases hu with hne | rfl
    · simp [hid, hne]
    · exact absurd rfl hid

/-- C2: an ephemeral token (magic-link or password-reset) is consumable at
most once — one successful consumption marks the record used, and a
subsequent consume call presenting the same raw token fails with
`InvalidCredentials`. -/
theorem ephemeral_consume_at_most_once
    (mdb : List MagicLinkTokenRec) (mtok : MagicLinkTokenRec)
    (tks : AuthTokens) (rest₂ : Except AppError AuthTokens)
    (mh : String) (mt mt' : Int)
    (rdb : List PasswordResetTokenRec) (rtok : PasswordResetTokenRec)
    (refreshDb refreshDb₂ : List RefreshTokenRec) (u : UserRec)
    (userFound₂ : Option UserRec) (emailRule₂ : Bool)
    (rh : String) (rt rt' : Int)
    (hmfind : find_magic_link_token_by_hash mdb mh mt = some mtok)
    (hmuniq : mdb.all (fun q => !(q.tokenHash == mh) || decide (q = mtok)) = true)
    (hrfind : find_password_reset_token_by_hash rdb rh rt = some rtok)
    (hruniq : rdb.all (fun q => !(q.tokenHash == rh) || decide (q = rtok)) = true) :
    verify_magic_link mdb (.ok tks) mh mt
      = .ok (mark_magic_link_token_used mdb mtok.id mt, tks)
    ∧ verify_magic_link (mark_magic_link_token_used mdb mtok.id mt) rest₂ mh mt'
      = .error .InvalidCredentials
    ∧ complete_password_reset rdb refreshDb true (some u) true rh rt
      = .ok (mark_password_reset_token_used rdb rtok.id rt,
             revoke_all_user_refresh_tokens refreshDb u.id rt)
    ∧ complete_password_reset (mark_password_reset_token_used rdb rtok.id rt)
        refreshDb₂ true userFound₂ emailRule₂ rh rt'
      = .error .InvalidCredentials := by
  have hmpred := List.find?_some hmfind
  simp only [Bool.and_eq_true, beq_iff_eq, Option.isNone_iff_eq_none,
    decide_eq_true_eq] at hmpred
  obtain ⟨⟨hmh, hmun⟩, hmexp⟩ := hmpred
  have hmvalid : mtok.isValid mt = true := by
    simp only [MagicLinkTokenRec.isValid, hmun, Option.isSome_none,
      Bool.not_false, Bool.and_true, Bool.not_eq_true', decide_eq_false_iff_not]
    omega
  have hrpred := List.find?_some hrfind
  simp only [Bool.and_eq_true, beq_iff_eq, Option.isNone_iff_eq_none,
    decide_eq_true_eq] at hrpred
  obtain ⟨⟨hrh, hrun⟩, hrexp⟩ := hrpred
  have hrvalid : rtok.isValid rt = true := by
    simp only [PasswordResetTokenRec.isValid, hrun, Option.isSome_none,
      Bool.not_false, Bool.and_true, Bool.not_eq_true', decide_eq_false_iff_not]
    omega
  refine ⟨?_, ?_, ?_, ?_⟩
  · simp [verify_magic_link, hmfind, hmvalid]
  · simp [verify_magic_link,
      find_magic_after_mark mdb mtok mh mt mt' hmfind hmuniq]
  · simp [complete_password_reset, hrfind, hrvalid]
  · simp [complete_password_reset,
      find_reset_after_mark rdb rtok rh rt rt' hrfind hruniq]

/-- Witness for the C2 theorem at concrete token tables. -/
theorem ephemeral_consume_at_most_once_witness :
    find_magic_link_token_by_hash [⟨1, "a@b.c", "mh", 100, none, 0⟩] "mh" 50
      = some ⟨1, "a@b.c", "mh", 100, none, 0⟩
    ∧ ([(⟨1, "a@b.c", "mh", 100, none, 0⟩ : MagicLinkTokenRec)].all
        (fun q => !(q.tokenHash == "mh")
          || decide (q = ⟨1, "a@b.c", "mh", 100, none, 0⟩)) = true)
    ∧ find_password_reset_token_by_hash [⟨2, 7, "rh", 200, none, 0⟩] "rh" 60
      = some ⟨2, 7, "rh", 200, none, 0⟩
    ∧ ([(⟨2, 7, "rh", 200, none, 0⟩ : PasswordResetTokenRec)].all
        (fun q => !(q.tokenHash == "rh")
          || decide (q = ⟨2, 7, "rh", 200, none, 0⟩)) = true)
    ∧ (verify_magic_link [⟨1, "a@b.c", "mh", 100, none, 0⟩] (.ok ⟨"at", "rt", 900⟩) "mh" 50
        = .ok (mark_magic_link_token_used [⟨1, "a@b.c", "mh", 100, none, 0⟩] 1 50,
               ⟨"at", "rt", 900⟩)
      ∧ verify_magic_link
          (mark_magic_link_token_used [⟨1, "a@b.c", "mh", 100, none, 0⟩] 1 50)
          (.ok ⟨"at2", "rt2", 900⟩) "mh" 55
        = .error .InvalidCredentials
      ∧ complete_password_reset [⟨2, 7, "rh", 200, none, 0⟩] [] true
          (some ⟨7, "a@b.c", some "ph", none⟩) true "rh" 60
        = .ok (mark_password_reset_token_used [⟨2, 7, "rh", 200, none, 0⟩] 2 60,
               revoke_all_user_refresh_tokens [] 7 60)
      ∧ complete_password_reset
          (mark_password_reset_token_used [⟨2, 7, "rh", 200, none, 0⟩] 2 60)
          [] true none true "rh" 70
        = .error .InvalidCredentials) :=
  ⟨by decide, by decide, by decide, by decide,
   ephemeral_consume_at_most_once
     [⟨1, "a@b.c", "mh", 100, none, 0⟩] ⟨1, "a@b.c", "mh", 100, none, 0⟩
     ⟨"at", "rt", 900⟩ (.ok ⟨"at2", "rt2", 900⟩) "mh" 50 55
     [⟨2, 7, "rh", 200, none, 0⟩] ⟨2, 7, "rh", 200, none, 0⟩
     [] [] ⟨7, "a@b.c", some "ph", none⟩ none true "rh" 60 70
     (by decide) (by decide) (by decide) (by decide)⟩

/-- Unusability of a refresh-token record is monotone in time: the expiry
is fixed and the revocation mark is part of the record. -/
theorem refreshUsable_mono (r : RefreshTokenRec) (t₀ t₁ : Int)
    (h : refreshUsable r t₀ = false) (hle : t₀ ≤ t₁) :
    refreshUsable r t₁ = false := by
  rcases hrov : r.revokedAt with _ | v
  · simp only [refreshUsable, hrov, Option.isNone_none, Bool.true_and,
      decide_eq_false_iff_not] at h ⊢
    omega
  · simp [refreshUsable, hrov]

/-- After a successful refresh consumed the record fetched for hash `h`,
no record with hash `h` is fetchable any more (unique hash constraint,
fresh hash for the newly minted token). -/
theorem find_refresh_after_consume (db : List RefreshTokenRec)
    (stored : RefreshTokenRec) (h newHash : String) (newId claimsSub : Nat)
    (dev : Option String) (t t' : Int)
    (hfind : find_refresh_token_by_hash db h t = some stored)
    (huniq : db.all (fun q => !(q.tokenHash == h) || decide (q = stored)) = true)
    (hfreshHash : newHash ≠ h) :
    find_refresh_token_by_hash
      (create_refresh_token (revoke_refresh_token db stored.id t)
        ⟨claimsSub, newHash, dev, t + 2592000⟩ newId t) h t' = none := by
  unfold find_refresh_token_by_hash at hfind ⊢
  rw [List.find?_eq_none]
  intro q hq
  simp only [create_refresh_token, List.mem_append, List.mem_singleton] at hq
  rcases hq with hq | rfl
  · simp only [revoke_refresh_token] at hq
    obtain ⟨p, hp, rfl⟩ := List.mem_map.mp hq
    by_cases hid : p.id = stored.id
    · simp [hid]
    · have hu := List.all_eq_true.mp huniq p hp
      simp only [Bool.or_eq_true, Bool.not_eq_true', beq_eq_false_iff_ne,
        decide_eq_true_eq] at hu
      rcases hu with hne | rfl
      · simp [hid, hne]
      · exact absurd rfl hid
  · simp [hfreshHash]

/-- C1: a successful refresh consumes the presented rotation-token record —
the flow succeeds, the consumed record is marked revoked, any later
refresh presenting the same secret hash fails with `InvalidCredentials`
or `TokenExpired`, and no repository write operation ever returns a
revoked or expired record to a usable state. -/
theorem refresh_rotation_consumes_permanently
    (db : List RefreshTokenRec) (users users₂ : List Nat)
    (sig₂ : Except AppError Unit) (claimsSub claimsSub₂ : Nat)
    (h newHash newHash₂ : String) (newId newId₂ : Nat)
    (dev dev₂ : Option String) (t t' : Int) (stored : RefreshTokenRec)
    (db' : List RefreshTokenRec) (r : RefreshTokenRec) (op : RefreshOp)
    (t₀ t₁ : Int)
    (hfind : find_refresh_token_by_hash db h t = some stored)
    (huser : users.contains claimsSub = true)
    (huniq : db.all (fun q => !(q.tokenHash == h) || decide (q = stored)) = true)
    (hfreshHash : newHash ≠ h)
    (hfreshId : db.all (fun q => q.id != newId) = true)
    (hsig₂ : sig₂ = .ok () ∨ sig₂ = .error .TokenExpired
              ∨ sig₂ = .error .InvalidCredentials)
    (hrmem : r ∈ db') (hrun : refreshUsable r t₀ = false)
    (hopfresh : opFreshB db' op = true)
    (hnodup : (db'.map (fun q => q.id)).Nodup)
    (hle : t₀ ≤ t₁) :
    refresh_tokens db users (.ok ()) claimsSub h newId newHash dev t
      = .ok (create_refresh_token (revoke_refresh_token db stored.id t)
              ⟨claimsSub, newHash, dev, t + 2592000⟩ newId t)
    ∧ ((create_refresh_token (revoke_refresh_token db stored.id t)
          ⟨claimsSub, newHash, dev, t + 2592000⟩ newId t).all
        (fun q => !(q.id == stored.id) || q.revokedAt == some t) = true)
    ∧ (refresh_tokens (create_refresh_token (revoke_refresh_token db stored.id t)
            ⟨claimsSub, newHash, dev, t + 2592000⟩ newId t) users₂ sig₂
            claimsSub₂ h newId₂ newHash₂ dev₂ t'
          = .error .InvalidCredentials
       ∨ refresh_tokens (create_refresh_token (revoke_refresh_token db stored.id t)
            ⟨claimsSub, newHash, dev, t + 2592000⟩ newId t) users₂ sig₂
            claimsSub₂ h newId₂ newHash₂ dev₂ t'
          = .error .TokenExpired)
    ∧ ((applyRefreshOp db' op t₁).all
        (fun q => !(q.id == r.id) || !(refreshUsable q t₁)) = true) := by
  have hfindL : List.find? (fun q => q.tokenHash == h && q.revokedAt.isNone
      && decide (t < q.expiresAt)) db = some stored := hfind
  have hpred := List.find?_some hfindL
  have hmem := List.mem_of_find?_eq_some hfindL
  simp only [Bool.and_eq_true, beq_iff_eq, Option.isNone_iff_eq_none,
    decide_eq_true_eq] at hpred
  obtain ⟨⟨hhash, hrevnone⟩, hexp⟩ := hpred
  have hvalid : stored.isValid t = true := by
    simp only [RefreshTokenRec.isValid, RefreshTokenRec.isExpired,
      RefreshTokenRec.isRevoked, hrevnone, Option.isSome_none, Bool.not_false,
      Bool.and_true, Bool.not_eq_true', decide_eq_false_iff_not]
    omega
  have hinj : ∀ p ∈ db', p.id = r.id → p = r := fun p hp hpe =>
    List.inj_on_of_nodup_map hnodup hp hrmem hpe
  have humem : claimsSub ∈ users := by simpa using huser
  refine ⟨?_, ?_, ?_, ?_⟩
  · simp [refresh_tokens, hfind, hvalid, humem]
  · rw [List.all_eq_true]
    intro q hq
    simp only [create_refresh_token, List.mem_append, List.mem_singleton] at hq
    rcases hq with hq | rfl
    · simp only [revoke_refresh_token] at hq
      obtain ⟨p, hp, rfl⟩ := List.mem_map.mp hq
      by_cases hid : p.id = stored.id
      · simp [hid]
      · simp [hid]
    · have hne : stored.id ≠ newId := by
        have := List.all_eq_true.mp hfreshId stored hmem
        simpa using this
      have hne' : newId ≠ stored.id := Ne.symm hne
      simp [hne']
  · rcases hsig₂ with rfl | rfl | rfl
    · left
      simp [refresh_tokens,
        find_refresh_after_consume db stored h newHash newId claimsSub dev t t'
          hfind huniq hfreshHash]
    · right
      simp [refresh_tokens]
    · left
      simp [refresh_tokens]
  · rw [List.all_eq_true]
    intro q hq
    by_cases hqid : q.id = r.id
    · suffices hus : refreshUsable q t₁ = false by simp [hqid, hus]
      cases op with
      | create data newId' =>
          simp only [applyRefreshOp, create_refresh_token, List.mem_append,
            List.mem_singleton] at hq
          rcases hq with hq | rfl
          · have hqr := hinj q hq hqid
            rw [hqr]
            exact refreshUsable_mono r t₀ t₁ hrun hle
          · exfalso
            simp only [opFreshB] at hopfresh
            have := List.all_eq_true.mp hopfresh r hrmem
            simp only [bne_iff_ne, ne_eq] at this
            exact this hqid.symm
      | updateLastUsed tid =>
          simp only [applyRefreshOp, update_refresh_token_last_used] at hq
          obtain ⟨p, hp, rfl⟩ := List.mem_map.mp hq
          have hpid : p.id = r.id := by
            by_cases hc : p.id = tid
            · simpa [hc] using hqid
            · simpa [hc] using hqid
          have hpr := hinj p hp hpid
          subst hpr
          by_cases hc : p.id = tid
          · simp only [hc, if_pos rfl]
            have : refreshUsable p t₁ = false := refreshUsable_mono p t₀ t₁ hrun hle
            simpa [refreshUsable] using this
          · simp only [if_neg hc]
            exact refreshUsable_mono p t₀ t₁ hrun hle
      | revoke tid =>
          simp only [applyRefreshOp, revoke_refresh_token] at hq
          obtain ⟨p, hp, rfl⟩ := List.mem_map.mp hq
          have hpid : p.id = r.id := by
            by_cases hc : p.id = tid
            · simpa [hc] using hqid
            · simpa [hc] using hqid
          have hpr := hinj p hp hpid
          subst hpr
          by_cases hc : p.id = tid
          · simp [hc, refreshUsable]
          · simp only [if_neg hc]
            exact refreshUsable_mono p t₀ t₁ hrun hle
      | revokeByHash hh =>
          simp only [applyRefreshOp, revoke_refresh_token_by_hash] at hq
          obtain ⟨p, hp, rfl⟩ := List.mem_map.mp hq
          have hpid : p.id = r.id := by
            by_cases hc : p.tokenHash = hh
            · simpa [hc] using hqid
            · simpa [hc] using hqid
          have hpr := hinj p hp hpid
          subst hpr
          by_cases hc : p.tokenHash = hh
          · simp [hc, refreshUsable]
          · simp only [if_neg hc]
            exact refreshUsable_mono p t₀ t₁ hrun hle
      | revokeAllForUser uid =>
          simp only [applyRefreshOp, revoke_all_user_refresh_tokens] at hq
          obtain ⟨p, hp, rfl⟩ := List.mem_map.mp hq
          have hpid : p.id = r.id := by
            by_cases hc : p.userId = uid ∧ p.revokedAt = none
            · simpa [hc] using hqid
            · simpa [hc] using hqid
          have hpr := hinj p hp hpid
          subst hpr
          by_cases hc : p.userId = uid ∧ p.revokedAt = none
          · simp [hc, refreshUsable]
          · simp only [if_neg hc]
            exact refreshUsable_mono p t₀ t₁ hrun hle
      | cleanup =>
          simp only [applyRefreshOp, cleanup_expired_refresh_tokens] at hq
          have hq' : q ∈ db' := List.mem_of_mem_filter hq
          have hqr := hinj q hq' hqid
          rw [hqr]
          exact refreshUsable_mono r t₀ t₁ hrun hle
    · simp [hqid]

/-- Witness for the C1 theorem at a concrete token table. -/
theorem refresh_rotation_consumes_permanently_witness :
    find_refresh_token_by_hash [⟨1, 10, "h1", none, 100, 0, none, none⟩] "h1" 50
      = some ⟨1, 10, "h1", none, 100, 0, none, none⟩
    ∧ refreshUsable ⟨4, 11, "h4", none, 40, 0, none, none⟩ 50 = false
    ∧ (refresh_tokens [⟨1, 10, "h1", none, 100, 0, none, none⟩] [10] (.ok ())
          10 "h1" 2 "h2" none 50
        = .ok (create_refresh_token
            (revoke_refresh_token [⟨1, 10, "h1", none, 100, 0, none, none⟩] 1 50)
            ⟨10, "h2", none, 50 + 2592000⟩ 2 50)
      ∧ ((create_refresh_token
            (revoke_refresh_token [⟨1, 10, "h1", none, 100, 0, none, none⟩] 1 50)
            ⟨10, "h2", none, 50 + 2592000⟩ 2 50).all
          (fun q => !(q.id == 1) || q.revokedAt == some 50) = true)
      ∧ (refresh_tokens (create_refresh_token
            (revoke_refresh_token [⟨1, 10, "h1", none, 100, 0, none, none⟩] 1 50)
            ⟨10, "h2", none, 50 + 2592000⟩ 2 50) [10] (.ok ()) 10 "h1" 3 "h3"
            none 60
          = .error .InvalidCredentials
        ∨ refresh_tokens (create_refresh_token
            (revoke_refresh_token [⟨1, 10, "h1", none, 100, 0, none, none⟩] 1 50)
            ⟨10, "h2", none, 50 + 2592000⟩ 2 50) [10] (.ok ()) 10 "h1" 3 "h3"
            none 60
          = .error .TokenExpired)
      ∧ ((applyRefreshOp [⟨4, 11, "h4", none, 40, 0, none, none⟩]
            (.updateLastUsed 4) 60).all
          (fun q => !(q.id == 4) || !(refreshUsable q 60)) = true)) :=
  ⟨by decide, by decide,
   refresh_rotation_consumes_permanently
     [⟨1, 10, "h1", none, 100, 0, none, none⟩] [10] [10] (.ok ()) 10 10
     "h1" "h2" "h3" 2 3 none none 50 60 ⟨1, 10, "h1", none, 100, 0, none, none⟩
     [⟨4, 11, "h4", none, 40, 0, none, none⟩]
     ⟨4, 11, "h4", none, 40, 0, none, none⟩ (.updateLastUsed 4) 50 60
     (by decide) (by decide) (by decide) (by decide) (by decide) (Or.inl rfl)
     (by decide) (by decide) (by decide) (by decide) (by decide)⟩

theorem countAddr_cons_self (b path : String) (t : Int)
    (rest : List (String × String × Int)) :
    countAddr ((b, path, t) :: rest) b = countAddr rest b + 1 := by
  simp [countAddr]

theorem countAddr_cons_other (ip b path : String) (t : Int)
    (rest : List (String × String × Int)) (hne : ip ≠ b) :
    countAddr ((ip, path, t) :: rest) b = countAddr rest b := by
  simp [countAddr, hne]

/-- A strike for one address does not change another address's ban entry
or strike count. -/
theorem record_strike_other (st : AutoBanState) (cfg : AutoBanConfig)
    (ip path : String) (t : Int) (b : String) (hne : ip ≠ b) :
    bannedKey (record_strike st cfg ip path t).2 b = bannedKey st b
    ∧ strikeCount (record_strike st cfg ip path t).2 b = strikeCount st b := by
  have hb : b ≠ ip := Ne.symm hne
  simp only [record_strike]
  constructor
  · split <;> split <;>
      simp [bannedKey, alookup_ainsert_ne _ _ _ _ hb]
  · split <;> split <;>
      simp [strikeCount, alookup_aerase_ne _ _ _ hb,
        alookup_ainsert_ne _ _ _ _ hb]

/-- While an address sits strictly below the threshold, a strike does not
ban it and raises its count by at most one. -/
theorem record_strike_under (st : AutoBanState) (cfg : AutoBanConfig)
    (ip path : String) (t : Int)
    (h : strikeCount st ip + 1 < cfg.threshold) :
    (record_strike st cfg ip path t).2.banned = st.banned
    ∧ strikeCount (record_strike st cfg ip path t).2 ip
        ≤ strikeCount st ip + 1 := by
  cases hl : alookup st.strikes ip with
  | none =>
      have hsc : strikeCount st ip = 0 := by simp [strikeCount, hl]
      rw [hsc] at h ⊢
      have hthr : ¬ (cfg.threshold ≤ 1) := by omega
      simp only [record_strike, hl, Option.getD_none]
      by_cases hres : t - (⟨0, t, ""⟩ : StrikeEntry).firstSeen > (cfg.windowSecs : Int)
      · simp [hres, hthr, strikeCount, alookup_ainsert_self]
      · simp [hres, hthr, strikeCount, alookup_ainsert_self]
  | some e =>
      have hsc : strikeCount st ip = e.count := by simp [strikeCount, hl]
      rw [hsc] at h ⊢
      simp only [record_strike, hl, Option.getD_some]
      by_cases hres : t - e.firstSeen > (cfg.windowSecs : Int)
      · have hthr : ¬ (cfg.threshold ≤ 1) := by omega
        constructor
        · simp [hres, hthr]
        · simp [hres, hthr, strikeCount, alookup_ainsert_self]
      · have hthr : ¬ (cfg.threshold ≤ e.count + 1) := by omega
        constructor
        · simp [hres, hthr]
        · simp [hres, hthr, strikeCount, alookup_ainsert_self]

/-- An address that accumulates fewer strikes than the threshold (its own
events plus its starting count) is never banned by a run of strikes. -/
theorem runStrikes_below (cfg : AutoBanConfig) (b : String) :
    ∀ (evs : List (String × String × Int)) (st : AutoBanState),
      bannedKey st b = false →
      strikeCount st b + countAddr evs b < cfg.threshold →
      bannedKey (runStrikes st cfg evs) b = false := by
  intro evs
  induction evs with
  | nil =>
      intro st h1 _
      simpa [runStrikes] using h1
  | cons e rest ih =>
      obtain ⟨ip, path, t⟩ := e
      intro st h1 h2
      simp only [runStrikes]
      by_cases hip : ip = b
      · subst hip
        rw [countAddr_cons_self] at h2
        have hun : strikeCount st ip + 1 < cfg.threshold := by omega
        obtain ⟨hband, hcnt⟩ := record_strike_under st cfg ip path t hun
        apply ih
        · show (alookup (record_strike st cfg ip path t).2.banned ip).isSome = false
          rw [hband]
          exact h1
        · omega
      · obtain ⟨hband, hcnt⟩ := record_strike_other st cfg ip path t b hip
        rw [countAddr_cons_other ip b path t rest hip] at h2
        apply ih
        · rw [hband]
          exact h1
        · rw [hcnt]
          exact h2

/-- From a live strike entry with count `c` and window anchor `t₀`,
feeding exactly `threshold − c` further strikes for the same address, all
within the window, bans the address by the time of the last strike. -/
theorem runStrikes_ban (cfg : AutoBanConfig) (a : String)
    (hdur : 0 < cfg.banDurationSecs) :
    ∀ (evs : List (String × String × Int)) (st : AutoBanState)
      (c : Nat) (t₀ : Int) (lp pN : String) (tN : Int),
      alookup st.strikes a = some ⟨c, t₀, lp⟩ →
      evs.all (fun e => e.1 == a
        && decide (e.2.2 - t₀ ≤ (cfg.windowSecs : Int))) = true →
      evs.getLast? = some (a, pN, tN) →
      c + evs.length = cfg.threshold →
      is_banned (runStrikes st cfg evs) a tN = true := by
  intro evs
  induction evs with
  | nil =>
      intro st c t₀ lp pN tN _ _ hlast _
      simp at hlast
  | cons e rest ih =>
      obtain ⟨ip, path, t⟩ := e
      intro st c t₀ lp pN tN hsc hall hlast hlen
      have he := List.all_eq_true.mp hall (ip, path, t) (by simp)
      simp only [Bool.and_eq_true, beq_iff_eq, decide_eq_true_eq] at he
      obtain ⟨rfl, hwin⟩ := he
      have htail : rest.all (fun e => e.1 == ip
          && decide (e.2.2 - t₀ ≤ (cfg.windowSecs : Int))) = true := by
        rw [List.all_eq_true] at hall ⊢
        intro x hx
        exact hall x (by simp [hx])
      have hnores : ¬ (t - t₀ > (cfg.windowSecs : Int)) := by omega
      cases rest with
      | nil =>
          have hc1 : cfg.threshold ≤ c + 1 := by
            simp at hlen
            omega
          have hend : path = pN ∧ t = tN := by
            simp at hlast
            tauto
          obtain ⟨rfl, rfl⟩ := hend
          simp only [runStrikes, record_strike, hsc, Option.getD_some]
          simp only [hnores, if_false, hc1, if_true]
          simp [is_banned, alookup_ainsert_self]
          omega
      | cons e₂ rest₂ =>
          have hthr : ¬ (cfg.threshold ≤ c + 1) := by
            simp at hlen
            omega
          have hstep : (record_strike st cfg ip path t).2
              = ⟨st.banned, ainsert st.strikes ip ⟨c + 1, t₀, path⟩⟩ := by
            simp only [record_strike, hsc, Option.getD_some]
            simp [hnores, hthr]
          simp only [runStrikes, hstep]
          rw [List.getLast?_cons_cons] at hlast
          apply ih ⟨st.banned, ainsert st.strikes ip ⟨c + 1, t₀, path⟩⟩
            (c + 1) t₀ path pN tN
          · exact alookup_ainsert_self _ _ _
          · exact htail
          · exact hlast
          · simp at hlen ⊢
            omega

/-- C4: starting from no strikes and no ban, exactly `threshold` strikes
for one address within the tracking window make `is_banned` true for that
address at the time of the last strike, while any address with fewer than
`threshold` strike events in a run (for instance the same total spread
over two addresses) is never banned. -/
theorem ban_threshold_exact
    (cfg : AutoBanConfig) (a b : String)
    (evs1 evs2 : List (String × String × Int))
    (p₁ pN : String) (t₁ tN t₂ : Int)
    (hthr : 1 ≤ cfg.threshold)
    (hdur : 0 < cfg.banDurationSecs)
    (hhead : evs1.head? = some (a, p₁, t₁))
    (hlast : evs1.getLast? = some (a, pN, tN))
    (hlen : evs1.length = cfg.threshold)
    (hall : evs1.all (fun e => e.1 == a
      && decide (e.2.2 - t₁ ≤ (cfg.windowSecs : Int))) = true)
    (hcnt : countAddr evs2 b < cfg.threshold) :
    is_banned (runStrikes emptyAutoBanState cfg evs1) a tN = true
    ∧ is_banned (runStrikes emptyAutoBanState cfg evs2) b t₂ = false := by
  constructor
  · cases evs1 with
    | nil => simp at hhead
    | cons e rest =>
        have he : e = (a, p₁, t₁) := by simpa using hhead
        subst he
        have hnores : ¬ (t₁ - t₁ > (cfg.windowSecs : Int)) := by omega
        cases rest with
        | nil =>
            have hc1 : cfg.threshold ≤ 0 + 1 := by
              simp at hlen
              omega
            have hend : pN = p₁ ∧ tN = t₁ := by
              simp at hlast
              tauto
            obtain ⟨rfl, rfl⟩ := hend
            simp only [runStrikes, record_strike, emptyAutoBanState, alookup,
              Option.getD_none]
            simp only [hnores, if_false, hc1, if_true]
            simp [is_banned, alookup_ainsert_self]
            omega
        | cons e₂ rest₂ =>
            have hthr2 : ¬ (cfg.threshold ≤ 0 + 1) := by
              simp at hlen
              omega
            have hstep : (record_strike emptyAutoBanState cfg a p₁ t₁).2
                = ⟨[], [(a, ⟨1, t₁, p₁⟩)]⟩ := by
              simp only [record_strike, emptyAutoBanState, alookup,
                Option.getD_none]
              simp [hnores, hthr2, ainsert]
            simp only [runStrikes, hstep]
            rw [List.getLast?_cons_cons] at hlast
            have htail : (e₂ :: rest₂).all (fun e => e.1 == a
                && decide (e.2.2 - t₁ ≤ (cfg.windowSecs : Int))) = true := by
              rw [List.all_eq_true] at hall ⊢
              intro x hx
              exact hall x (by simp [hx])
            apply runStrikes_ban cfg a hdur (e₂ :: rest₂)
              ⟨[], [(a, ⟨1, t₁, p₁⟩)]⟩ 1 t₁ p₁ pN tN
            · simp [alookup]
            · exact htail
            · exact hlast
            · simp at hlen ⊢
              omega
  · have h0 : bannedKey emptyAutoBanState b = false := by
      simp [bannedKey, emptyAutoBanState, alookup]
    have hsc0 : strikeCount emptyAutoBanState b = 0 := by
      simp [strikeCount, emptyAutoBanState, alookup]
    have hbk := runStrikes_below cfg b evs2 emptyAutoBanState h0
      (by rw [hsc0]; simpa using hcnt)
    cases halo : alookup (runStrikes emptyAutoBanState cfg evs2).banned b with
    | none => simp [is_banned, halo]
    | some e =>
        rw [bannedKey, halo] at hbk
        simp at hbk

/-- Witness for the C4 theorem: threshold 3, three strikes from one
address within the window ban it; four strikes split over two other
addresses ban neither. -/
theorem ban_threshold_exact_witness :
    (1 ≤ (3 : Nat))
    ∧ ([("10.0.0.1", "/wp-login.php", (0 : Int)),
        ("10.0.0.1", "/xmlrpc.php", (5 : Int)),
        ("10.0.0.1", "/config.php", (9 : Int))].length = 3)
    ∧ (countAddr [("10.0.0.2", "/wp-login.php", (0 : Int)),
        ("10.0.0.3", "/wp-login.php", (1 : Int)),
        ("10.0.0.2", "/xmlrpc.php", (2 : Int)),
        ("10.0.0.3", "/xmlrpc.php", (3 : Int))] "10.0.0.2" < 3)
    ∧ (is_banned (runStrikes emptyAutoBanState ⟨true, 3, 3600, 86400⟩
        [("10.0.0.1", "/wp-login.php", (0 : Int)),
         ("10.0.0.1", "/xmlrpc.php", (5 : Int)),
         ("10.0.0.1", "/config.php", (9 : Int))]) "10.0.0.1" 9 = true
      ∧ is_banned (runStrikes emptyAutoBanState ⟨true, 3, 3600, 86400⟩
          [("10.0.0.2", "/wp-login.php", (0 : Int)),
           ("10.0.0.3", "/wp-login.php", (1 : Int)),
           ("10.0.0.2", "/xmlrpc.php", (2 : Int)),
           ("10.0.0.3", "/xmlrpc.php", (3 : Int))]) "10.0.0.2" 3 = false) :=
  ⟨by decide, by decide, by decide,
   ban_threshold_exact ⟨true, 3, 3600, 86400⟩ "10.0.0.1" "10.0.0.2"
     [("10.0.0.1", "/wp-login.php", 0), ("10.0.0.1", "/xmlrpc.php", 5),
      ("10.0.0.1", "/config.php", 9)]
     [("10.0.0.2", "/wp-login.php", 0), ("10.0.0.3", "/wp-login.php", 1),
      ("10.0.0.2", "/xmlrpc.php", 2), ("10.0.0.3", "/xmlrpc.php", 3)]
     "/wp-login.php" "/config.php" 0 9 3
     (by decide) (by decide) (by decide) (by decide) (by decide) (by decide)
     (by decide)⟩

end Saas
